import Mathlib

/-!
Shallow embedding of the telemetry engine of `SystemMonitoringTool`
(`src/study/Aicode test/AItest.cpp`): the rate computations of
`SystemInfoCollector` (`getIoStats`, `getCPUUsageLinux`, the
`memory_percent` derivation of `getSystemStats`), the bounded history
of `DataCollector` (`collectionLoop` push / `getSystemHistory`), and
the threshold/cooldown logic of `AlertSystem` (`checkAlerts`,
`shouldAlert`).

Conventions of the embedding:
- `double` values are modelled as exact rationals (`ℚ`).
- `uint64_t` values are natural numbers below `2^64`; every arithmetic
  operation on them is taken modulo `2^64` (`add64`, `sub64`), exactly as
  C++ unsigned arithmetic wraps.
- `std::chrono::system_clock::time_point` is an integer count of
  nanoseconds since the epoch (the clock's native resolution on the
  Linux code path); `duration_cast<milliseconds>` is integer division
  by `10^6` truncating toward zero (`Int.tdiv`), as in C++.
- The platform probe (`/proc` parsing, `sysinfo`, …) is external input:
  its readings enter each function as explicit arguments.
- Each stateful C++ member function becomes a pure function from the
  old member state and the inputs to the result and the new state.
-/

namespace SystemMonitoringTool

/-- `2^64`, the modulus of C++ `uint64_t` arithmetic. -/
def U64 : ℕ := 2 ^ 64

/-- C++ `uint64_t` addition: wraps modulo `2^64`. -/
def add64 (a b : ℕ) : ℕ := (a + b) % U64

/-- C++ `uint64_t` subtraction `a - b`: wraps modulo `2^64`
(for `a, b < 2^64` this is `a - b` when `b ≤ a` and `2^64 - (b - a)` otherwise). -/
def sub64 (a b : ℕ) : ℕ := (a % U64 + (U64 - b % U64)) % U64

/-- `duration_cast<std::chrono::milliseconds>(later - earlier).count()` for
nanosecond time points: division by `10^6` truncating toward zero. -/
def durationMs (earlier later : ℤ) : ℤ := Int.tdiv (later - earlier) 1000000

/-- `SystemInfoCollector::IOCounters`: cumulative read/write byte totals
(the summed `/proc/diskstats` sectors times 512, a `uint64_t`) plus the
time point at which they were sampled. -/
structure IoCounters where
  read_bytes : ℕ
  write_bytes : ℕ
  timestamp : ℤ
deriving DecidableEq, Repr

/-- The members of `SystemInfoCollector` that `getIOStats` reads and writes:
`prev_io_counters_` and `first_io_read_`. -/
structure IoState where
  prev_io_counters : IoCounters
  first_io_read : Bool
deriving DecidableEq, Repr

/-- `SystemInfoCollector::getIOStats` (Linux path).  `cur` holds the cumulative
totals the probe just read together with `now`.  Mirrors the source: when not
the first read, `duration` is the elapsed time truncated to milliseconds; if
it is positive each rate is `(current - previous) * 1000.0 / duration` with
the subtraction performed in `uint64_t` (wrapping), otherwise both rates are
`0`; on the first read both rates are `0` and the flag is cleared; in every
case `prev_io_counters_` becomes the current counters. -/
def getIoStats (s : IoState) (cur : IoCounters) : (ℚ × ℚ) × IoState :=
  let rates :=
    if s.first_io_read then (0, 0)
    else
      let duration := durationMs s.prev_io_counters.timestamp cur.timestamp
      if 0 < duration then
        (((sub64 cur.read_bytes s.prev_io_counters.read_bytes : ℚ) * 1000) / (duration : ℚ),
         ((sub64 cur.write_bytes s.prev_io_counters.write_bytes : ℚ) * 1000) / (duration : ℚ))
      else (0, 0)
  (rates, { prev_io_counters := cur, first_io_read := false })

/-- `SystemInfoCollector::CPUTimes`: the eight jiffy counters of the first
line of `/proc/stat`, each a `uint64_t`. -/
structure CPUTimes where
  user : ℕ
  nice : ℕ
  system : ℕ
  idle : ℕ
  iowait : ℕ
  irq : ℕ
  softirq : ℕ
  steal : ℕ
deriving DecidableEq, Repr

/-- The members of `SystemInfoCollector` that `getCPUUsageLinux` reads and
writes: `prev_cpu_times_` and `first_cpu_read_`. -/
structure CPUState where
  prev_cpu_times : CPUTimes
  first_cpu_read : Bool
deriving DecidableEq, Repr

/-- `idle + iowait` of the source, in `uint64_t` arithmetic. -/
def idleJiffies (t : CPUTimes) : ℕ := add64 t.idle t.iowait

/-- `user + nice + system + irq + softirq + steal` of the source, in
`uint64_t` arithmetic (left-associated additions, each wrapping). -/
def nonIdleJiffies (t : CPUTimes) : ℕ :=
  add64 (add64 (add64 (add64 (add64 t.user t.nice) t.system) t.irq) t.softirq) t.steal

/-- `idle + non_idle` of the source: the total jiffy count used as divisor. -/
def totalJiffies (t : CPUTimes) : ℕ := add64 (idleJiffies t) (nonIdleJiffies t)

/-- `SystemInfoCollector::getCPUUsageLinux` on a successful `readCPUTimes`
(the failed-read early return is a probe failure and is not modelled; the
probe's reading enters as `cur`).  Mirrors the source: first read stores the
baseline and returns `0`; otherwise the idle and total deltas are computed in
`uint64_t` arithmetic, `prev_cpu_times_` becomes `cur`, and the result is `0`
when `total_diff == 0`, else `(total_diff - idle_diff) / total_diff * 100`
(again with wrapping subtraction before the conversion to `double`). -/
def getCPUUsageLinux (s : CPUState) (cur : CPUTimes) : ℚ × CPUState :=
  if s.first_cpu_read then (0, { prev_cpu_times := cur, first_cpu_read := false })
  else
    let total_diff := sub64 (totalJiffies cur) (totalJiffies s.prev_cpu_times)
    let idle_diff := sub64 (idleJiffies cur) (idleJiffies s.prev_cpu_times)
    if total_diff = 0 then (0, { prev_cpu_times := cur, first_cpu_read := false })
    else (((sub64 total_diff idle_diff : ℚ) / (total_diff : ℚ)) * 100,
          { prev_cpu_times := cur, first_cpu_read := false })

/-- The `memory_percent` derivation of `SystemInfoCollector::getSystemStats`:
the field starts at the constructor default `0.0` and is overwritten with
`used / total * 100` only under the guard `memory_total_bytes > 0`. -/
def memoryPercent (memory_used_bytes memory_total_bytes : ℕ) : ℚ :=
  if 0 < memory_total_bytes then
    ((memory_used_bytes : ℚ) / (memory_total_bytes : ℚ)) * 100
  else 0

/-- `SystemMonitor::SystemStats`: one tick's system-wide snapshot. -/
structure SystemStats where
  timestamp : ℤ := 0
  cpu_percent : ℚ := 0
  memory_percent : ℚ := 0
  memory_used_bytes : ℕ := 0
  memory_total_bytes : ℕ := 0
  disk_io_read_rate : ℚ := 0
  disk_io_write_rate : ℚ := 0
  process_count : ℕ := 0
deriving DecidableEq, Repr

/-- `SystemMonitor::ProcessInfo`: one process's sample for a tick. -/
structure ProcessInfo where
  pid : ℕ := 0
  name : String := ""
  cpu_percent : ℚ := 0
  memory_percent : ℚ := 0
  memory_bytes : ℕ := 0
  io_read_bytes : ℕ := 0
  io_write_bytes : ℕ := 0
  status : String := ""
  create_time : ℤ := 0
deriving DecidableEq, Repr

/-- The history step of `DataCollector::collectionLoop`:
`system_history_.push_back(stats); if (size > max_history_size_) pop_front();`
on the `std::deque` (front = oldest, back = newest). -/
def pushHistory (max_history_size : ℕ) (h : List SystemStats) (stats : SystemStats) :
    List SystemStats :=
  let h' := h ++ [stats]
  if max_history_size < h'.length then h'.tail else h'

/-- `DataCollector::getSystemHistory(count)`: a copy of the whole deque when
`count == 0 || count >= size()`, otherwise a copy of the last `count`
entries (`end() - count` to `end()`), oldest first. -/
def getSystemHistory (h : List SystemStats) (count : ℕ) : List SystemStats :=
  if count = 0 ∨ h.length ≤ count then h else h.drop (h.length - count)

/-- The comparator passed to `std::sort` in `DataCollector::collectionLoop`:
`a.cpu_percent > b.cpu_percent`. -/
def cpuDescending (a b : ProcessInfo) : Bool := decide (b.cpu_percent < a.cpu_percent)

/-- The alert keys of `AlertSystem`.  The source uses the strings `"cpu"`,
`"memory"`, `"io"` and `"process_" + std::to_string(pid)`; these four shapes
are pairwise distinct and the process shape is injective in the pid (decimal
rendering of an unsigned integer), so they are encoded by this inductive. -/
inductive AlertKey where
  | cpu : AlertKey
  | memory : AlertKey
  | io : AlertKey
  | process (pid : ℕ) : AlertKey
deriving DecidableEq, Repr

/-- `AlertSystem::Alert::Type` (the source's `IO` enumerator is spelled
`Io` here). -/
inductive AlertType where
  | CPU : AlertType
  | MEMORY : AlertType
  | Io : AlertType
  | PROCESS : AlertType
deriving DecidableEq, Repr

/-- `AlertSystem::Alert`. -/
structure Alert where
  message : String
  timestamp : ℤ
  type : AlertType
deriving DecidableEq, Repr

/-- `AlertSystem::AlertThresholds`.  `cooldown_period` is held in the same
nanosecond unit as the time points it is compared against (the source stores
`std::chrono::seconds`, converted by `chrono` to the common duration type at
the comparison). -/
structure AlertThresholds where
  cpu_threshold : ℚ := 80
  memory_threshold : ℚ := 85
  io_threshold : ℚ := 100
  cooldown_period : ℤ := 60000000000
deriving DecidableEq, Repr

/-- `AlertSystem::last_alerts_`: the `unordered_map` from alert key to the
time point of the last firing, as an association list without duplicate
keys. -/
abbrev LastAlerts : Type := List (AlertKey × ℤ)

/-- `last_alerts_.find(key)`: the stored time point, if any. -/
def lastAlertsFind (m : LastAlerts) (key : AlertKey) : Option ℤ :=
  match m with
  | [] => none
  | (k, t) :: rest => if k = key then some t else lastAlertsFind rest key

/-- `last_alerts_[key] = now`: replace the entry if present, insert it
otherwise. -/
def lastAlertsSet (m : LastAlerts) (key : AlertKey) (now : ℤ) : LastAlerts :=
  match m with
  | [] => [(key, now)]
  | (k, t) :: rest =>
      if k = key then (key, now) :: rest else (k, t) :: lastAlertsSet rest key now

/-- `AlertSystem::shouldAlert`: fire (and record `now` for the key) when the
key is absent or `now - last_alerts_[key] >= cooldown_period`; otherwise
refuse and leave the map untouched. -/
def shouldAlert (th : AlertThresholds) (m : LastAlerts) (key : AlertKey) (now : ℤ) :
    Bool × LastAlerts :=
  match lastAlertsFind m key with
  | none => (true, lastAlertsSet m key now)
  | some t =>
      if th.cooldown_period ≤ now - t then (true, lastAlertsSet m key now)
      else (false, m)

/-- The CPU alert built in `AlertSystem::checkAlerts`. -/
def cpuAlertOf (stats : SystemStats) (now : ℤ) : Alert :=
  { message := "High CPU usage: " ++ toString stats.cpu_percent ++ "%"
    timestamp := now
    type := AlertType.CPU }

/-- The memory alert built in `AlertSystem::checkAlerts`. -/
def memoryAlertOf (stats : SystemStats) (now : ℤ) : Alert :=
  { message := "High memory usage: " ++ toString stats.memory_percent ++ "%"
    timestamp := now
    type := AlertType.MEMORY }

/-- The combined I/O rate checked by `AlertSystem::checkAlerts`:
`(read_rate + write_rate) / (1024 * 1024)`, in MB/s. -/
def totalIoRate (stats : SystemStats) : ℚ :=
  (stats.disk_io_read_rate + stats.disk_io_write_rate) / (1024 * 1024)

/-- The I/O alert built in `AlertSystem::checkAlerts`. -/
def ioAlertOf (stats : SystemStats) (now : ℤ) : Alert :=
  { message := "High I/O activity: " ++ toString (totalIoRate stats) ++ " MB/s"
    timestamp := now
    type := AlertType.Io }

/-- The per-process alert built in `AlertSystem::checkAlerts`, carrying the
process name, pid and usage in its message. -/
def processAlertOf (p : ProcessInfo) (now : ℤ) : Alert :=
  { message := "Process " ++ p.name ++ " (PID " ++ toString p.pid ++ ") using "
      ++ toString p.cpu_percent ++ "% CPU"
    timestamp := now
    type := AlertType.PROCESS }

/-- The CPU check of `AlertSystem::checkAlerts`: the threshold comparison
guards the `shouldAlert` call exactly as in the source (a metric at or below
its threshold never touches the cooldown map). -/
def checkCpuAlert (th : AlertThresholds) (m : LastAlerts) (stats : SystemStats)
    (now : ℤ) : List Alert × LastAlerts :=
  if th.cpu_threshold < stats.cpu_percent then
    (if (shouldAlert th m AlertKey.cpu now).1 then [cpuAlertOf stats now] else [],
     (shouldAlert th m AlertKey.cpu now).2)
  else ([], m)

/-- The memory check of `AlertSystem::checkAlerts`. -/
def checkMemoryAlert (th : AlertThresholds) (m : LastAlerts) (stats : SystemStats)
    (now : ℤ) : List Alert × LastAlerts :=
  if th.memory_threshold < stats.memory_percent then
    (if (shouldAlert th m AlertKey.memory now).1 then [memoryAlertOf stats now] else [],
     (shouldAlert th m AlertKey.memory now).2)
  else ([], m)

/-- The I/O check of `AlertSystem::checkAlerts`. -/
def checkIoAlert (th : AlertThresholds) (m : LastAlerts) (stats : SystemStats)
    (now : ℤ) : List Alert × LastAlerts :=
  if th.io_threshold < totalIoRate stats then
    (if (shouldAlert th m AlertKey.io now).1 then [ioAlertOf stats now] else [],
     (shouldAlert th m AlertKey.io now).2)
  else ([], m)

/-- The system-level part of `AlertSystem::checkAlerts`: the CPU, memory and
I/O checks in source order, each threading the cooldown map to the next, the
fired alerts collected in that order. -/
def checkSystemAlerts (th : AlertThresholds) (m : LastAlerts) (stats : SystemStats)
    (now : ℤ) : List Alert × LastAlerts :=
  ((checkCpuAlert th m stats now).1
     ++ (checkMemoryAlert th (checkCpuAlert th m stats now).2 stats now).1
     ++ (checkIoAlert th
          (checkMemoryAlert th (checkCpuAlert th m stats now).2 stats now).2
          stats now).1,
   (checkIoAlert th
      (checkMemoryAlert th (checkCpuAlert th m stats now).2 stats now).2
      stats now).2)

/-- The per-process loop of `AlertSystem::checkAlerts`: every process with
`cpu_percent > 50.0` (the hard-coded per-process threshold) is checked under
its own key `process_<pid>`, in list order, threading the cooldown map
through. -/
def checkProcessAlerts (th : AlertThresholds) (m : LastAlerts)
    (procs : List ProcessInfo) (now : ℤ) : List Alert × LastAlerts :=
  match procs with
  | [] => ([], m)
  | p :: rest =>
      if 50 < p.cpu_percent then
        if (shouldAlert th m (AlertKey.process p.pid) now).1 then
          (processAlertOf p now
             :: (checkProcessAlerts th (shouldAlert th m (AlertKey.process p.pid) now).2
                  rest now).1,
           (checkProcessAlerts th (shouldAlert th m (AlertKey.process p.pid) now).2
              rest now).2)
        else
          checkProcessAlerts th (shouldAlert th m (AlertKey.process p.pid) now).2 rest now
      else checkProcessAlerts th m rest now

/-- `AlertSystem::checkAlerts`: the system-level checks followed by the
per-process loop; the returned list holds the fired alerts in the order they
are pushed (and in which the alert callback is invoked). -/
def checkAlerts (th : AlertThresholds) (m : LastAlerts) (stats : SystemStats)
    (procs : List ProcessInfo) (now : ℤ) : List Alert × LastAlerts :=
  ((checkSystemAlerts th m stats now).1
     ++ (checkProcessAlerts th (checkSystemAlerts th m stats now).2 procs now).1,
   (checkProcessAlerts th (checkSystemAlerts th m stats now).2 procs now).2)

/-! ## Arithmetic helper lemmas about `uint64_t` wrapping -/

theorem sub64_of_le {a b : ℕ} (hb : b ≤ a) (ha : a < U64) : sub64 a b = a - b := by
  have hb' : b < U64 := lt_of_le_of_lt hb ha
  unfold sub64
  rw [Nat.mod_eq_of_lt ha, Nat.mod_eq_of_lt hb']
  have hU : 0 < U64 := by unfold U64; positivity
  have h1 : a + (U64 - b) = U64 + (a - b) := by omega
  rw [h1, Nat.add_mod_left, Nat.mod_eq_of_lt (by omega)]

theorem sub64_of_lt {a b : ℕ} (hab : a < b) (hb : b < U64) : sub64 a b = U64 - (b - a) := by
  have ha : a < U64 := lt_trans hab hb
  unfold sub64
  rw [Nat.mod_eq_of_lt ha, Nat.mod_eq_of_lt hb]
  rw [Nat.mod_eq_of_lt (by omega)]
  omega

theorem sub64_self (a : ℕ) : sub64 a a = 0 := by
  unfold sub64
  have hU : 0 < U64 := by unfold U64; positivity
  have h : a % U64 < U64 := Nat.mod_lt _ hU
  have h1 : a % U64 + (U64 - a % U64) = U64 := by omega
  rw [h1, Nat.mod_self]

/-! ## C1 — counter regression handling in the rate computation -/

/-- C1 counterexample.  The claim states that when the cumulative value
decreases between two consecutive calls the update emits rate `0`.  At the
concrete state below (baseline read total `100` at time `0`, current read
total `50` one second later) `getIoStats` performs the subtraction in
`uint64_t`, which wraps: the emitted read rate is `2^64 - 50` bytes/second,
not `0`. -/
theorem C1_counterexample :
    (50 : ℕ) < (IoState.mk (IoCounters.mk 100 100 0) false).prev_io_counters.read_bytes ∧
    (getIoStats (IoState.mk (IoCounters.mk 100 100 0) false)
        (IoCounters.mk 50 50 1000000000)).1.1 = ((U64 : ℚ) - 50) ∧
    ((U64 : ℚ) - 50) ≠ 0 := by
  refine ⟨by decide, ?_, by norm_num [U64]⟩
  norm_num [getIoStats, durationMs, sub64, U64, Int.tdiv]

/-- C1 (amended): the code has no counter-reset handling.  The rates it
emits are never negative (so that part of the claim holds), but when the
cumulative value decreases between two consecutive calls the emitted rate is
the `2^64`-wrapped difference divided by the elapsed milliseconds — an
enormous strictly positive value, not `0`.  The current reading is stored as
the new baseline in every case. -/
theorem C1_amended :
    (∀ (s : IoState) (cur : IoCounters),
       0 ≤ (getIoStats s cur).1.1 ∧ 0 ≤ (getIoStats s cur).1.2 ∧
       (getIoStats s cur).2.prev_io_counters = cur) ∧
    (∀ (s : IoState) (cur : IoCounters),
       s.first_io_read = false →
       0 < durationMs s.prev_io_counters.timestamp cur.timestamp →
       cur.read_bytes < s.prev_io_counters.read_bytes →
       s.prev_io_counters.read_bytes < U64 →
       (getIoStats s cur).1.1
         = ((U64 - (s.prev_io_counters.read_bytes - cur.read_bytes) : ℕ) : ℚ) * 1000
           / ((durationMs s.prev_io_counters.timestamp cur.timestamp : ℤ) : ℚ) ∧
       0 < (getIoStats s cur).1.1) := by
  constructor
  · intro s cur
    unfold getIoStats
    refine ⟨?_, ?_, rfl⟩ <;>
    · dsimp only
      split
      · norm_num
      · split
        · rename_i hdur
          have hd : (0 : ℚ) < ((durationMs s.prev_io_counters.timestamp cur.timestamp : ℤ) : ℚ) := by
            exact_mod_cast hdur
          positivity
        · norm_num
  · intro s cur hfirst hdur hdec hb
    have hwrap : sub64 cur.read_bytes s.prev_io_counters.read_bytes
        = U64 - (s.prev_io_counters.read_bytes - cur.read_bytes) := by
      rw [sub64_of_lt hdec hb]
    have hrate : (getIoStats s cur).1.1
        = ((U64 - (s.prev_io_counters.read_bytes - cur.read_bytes) : ℕ) : ℚ) * 1000
          / ((durationMs s.prev_io_counters.timestamp cur.timestamp : ℤ) : ℚ) := by
      unfold getIoStats
      dsimp only
      rw [if_neg (by simp [hfirst]), if_pos hdur, hwrap]
    refine ⟨hrate, ?_⟩
    rw [hrate]
    have hd : (0 : ℚ) < ((durationMs s.prev_io_counters.timestamp cur.timestamp : ℤ) : ℚ) := by
      exact_mod_cast hdur
    have hnum : (0 : ℚ) < ((U64 - (s.prev_io_counters.read_bytes - cur.read_bytes) : ℕ) : ℚ) := by
      have : 0 < U64 - (s.prev_io_counters.read_bytes - cur.read_bytes) := by omega
      exact_mod_cast this
    positivity

/-- Witness for `C1_amended` at the concrete reset of `C1_counterexample`. -/
theorem C1_witness :
    (getIoStats (IoState.mk (IoCounters.mk 100 100 0) false)
        (IoCounters.mk 50 50 1000000000)).1.1
      = ((U64 - 50 : ℕ) : ℚ) * 1000
        / ((durationMs (0 : ℤ) 1000000000 : ℤ) : ℚ) ∧
    0 < (getIoStats (IoState.mk (IoCounters.mk 100 100 0) false)
        (IoCounters.mk 50 50 1000000000)).1.1 :=
  C1_amended.2 (IoState.mk (IoCounters.mk 100 100 0) false)
    (IoCounters.mk 50 50 1000000000) rfl (by decide) (by decide) (by decide)

/-! ## C2 — first-update baseline and the exact rate formula -/

/-- C2 counterexample.  The claim states that every update with a
non-decreasing cumulative value and a strictly later timestamp returns
exactly `(current - previous) / elapsed`.  The code truncates the elapsed
time to whole milliseconds (`duration_cast<milliseconds>`): at the concrete
input below (1000 bytes more, 999999 nanoseconds later) the claimed value is
`1000 / 0.000999999 ≠ 0`, yet `getIoStats` returns `0` because the
truncated duration is `0`. -/
theorem C2_counterexample :
    (IoState.mk (IoCounters.mk 0 0 0) false).prev_io_counters.read_bytes
      ≤ (IoCounters.mk 1000 0 999999).read_bytes ∧
    (IoState.mk (IoCounters.mk 0 0 0) false).prev_io_counters.timestamp
      < (IoCounters.mk 1000 0 999999).timestamp ∧
    (getIoStats (IoState.mk (IoCounters.mk 0 0 0) false)
        (IoCounters.mk 1000 0 999999)).1.1 = 0 ∧
    ((1000 : ℚ) - 0) / (((999999 : ℚ) - 0) / 1000000000) ≠ 0 := by
  refine ⟨by decide, by decide, ?_, by norm_num⟩
  norm_num [getIoStats, durationMs, Int.tdiv]

/-- C2 (amended): the very first update returns `0` for both rates and
records the reading as baseline; a subsequent update with a non-decreasing
cumulative value returns `(Δvalue * 1000) / (elapsed milliseconds)` whenever
at least one whole millisecond elapsed (the code truncates the elapsed time
to milliseconds; a strictly later update inside the same millisecond returns
`0` instead of `Δvalue/Δt`).  When the elapsed time is exactly `k ≥ 1` whole
milliseconds this equals `Δvalue / (k/1000 seconds)`, the claimed quotient. -/
theorem C2_amended :
    (∀ (s : IoState) (cur : IoCounters),
       s.first_io_read = true →
       (getIoStats s cur).1.1 = 0 ∧ (getIoStats s cur).1.2 = 0 ∧
       (getIoStats s cur).2 = IoState.mk cur false) ∧
    (∀ (s : IoState) (cur : IoCounters),
       s.first_io_read = false →
       s.prev_io_counters.read_bytes ≤ cur.read_bytes →
       cur.read_bytes < U64 →
       1 ≤ durationMs s.prev_io_counters.timestamp cur.timestamp →
       (getIoStats s cur).1.1
         = ((cur.read_bytes - s.prev_io_counters.read_bytes : ℕ) : ℚ) * 1000
           / ((durationMs s.prev_io_counters.timestamp cur.timestamp : ℤ) : ℚ)) ∧
    (∀ (s : IoState) (cur : IoCounters) (k : ℤ),
       s.first_io_read = false →
       s.prev_io_counters.read_bytes ≤ cur.read_bytes →
       cur.read_bytes < U64 →
       1 ≤ k →
       cur.timestamp - s.prev_io_counters.timestamp = k * 1000000 →
       (getIoStats s cur).1.1
         = ((cur.read_bytes - s.prev_io_counters.read_bytes : ℕ) : ℚ)
           / ((k : ℚ) / 1000)) := by
  have hrate : ∀ (s : IoState) (cur : IoCounters),
      s.first_io_read = false →
      s.prev_io_counters.read_bytes ≤ cur.read_bytes →
      cur.read_bytes < U64 →
      1 ≤ durationMs s.prev_io_counters.timestamp cur.timestamp →
      (getIoStats s cur).1.1
        = ((cur.read_bytes - s.prev_io_counters.read_bytes : ℕ) : ℚ) * 1000
          / ((durationMs s.prev_io_counters.timestamp cur.timestamp : ℤ) : ℚ) := by
    intro s cur hfirst hmono hb hdur
    unfold getIoStats
    dsimp only
    rw [if_neg (by simp [hfirst]), if_pos (by omega),
      sub64_of_le hmono hb]
  refine ⟨?_, hrate, ?_⟩
  · intro s cur hfirst
    unfold getIoStats
    rw [if_pos hfirst]
    exact ⟨rfl, rfl, rfl⟩
  · intro s cur k hfirst hmono hb hk hts
    have hdm : durationMs s.prev_io_counters.timestamp cur.timestamp = k := by
      unfold durationMs
      rw [hts]
      exact Int.mul_tdiv_cancel k (by norm_num)
    rw [hrate s cur hfirst hmono hb (by omega), hdm]
    have hk0 : ((k : ℤ) : ℚ) ≠ 0 := by
      have : (0 : ℤ) < k := by omega
      exact_mod_cast this.ne'
    field_simp

/-- Witness for `C2_amended`: a first read, then a read 2000 bytes and two
whole seconds (`k = 2000` ms) later, giving rate `1000` bytes/second. -/
theorem C2_witness :
    (getIoStats (IoState.mk (IoCounters.mk 5 5 0) true) (IoCounters.mk 7 7 3)).1.1 = 0 ∧
    (getIoStats (IoState.mk (IoCounters.mk 0 0 0) false)
        (IoCounters.mk 2000 0 2000000000)).1.1
      = ((2000 - 0 : ℕ) : ℚ) / ((2000 : ℚ) / 1000) := by
  constructor
  · exact (C2_amended.1 (IoState.mk (IoCounters.mk 5 5 0) true)
      (IoCounters.mk 7 7 3) rfl).1
  · exact C2_amended.2.2 (IoState.mk (IoCounters.mk 0 0 0) false)
      (IoCounters.mk 2000 0 2000000000) 2000 rfl (by decide) (by decide)
      (by decide) (by decide)

/-! ## C3 — zero divisors yield zero, never a fault -/

/-- C3: each place that could divide by zero is guarded.  An elapsed time
truncating to `0` milliseconds makes `getIoStats` emit both rates as `0`; a
`memory_total_bytes` of `0` leaves `memory_percent` at its default `0`; a
zero total-jiffy delta makes `getCPUUsageLinux` return `0`.  In each case
the division is behind a guard requiring the divisor to be positive
(respectively nonzero). -/
theorem C3_zero_divisors :
    (∀ (s : IoState) (cur : IoCounters),
       durationMs s.prev_io_counters.timestamp cur.timestamp = 0 →
       (getIoStats s cur).1.1 = 0 ∧ (getIoStats s cur).1.2 = 0) ∧
    (∀ used : ℕ, memoryPercent used 0 = 0) ∧
    (∀ (s : CPUState) (cur : CPUTimes),
       sub64 (totalJiffies cur) (totalJiffies s.prev_cpu_times) = 0 →
       (getCPUUsageLinux s cur).1 = 0) := by
  refine ⟨?_, ?_, ?_⟩
  · intro s cur hdur
    unfold getIoStats
    dsimp only
    constructor <;>
    · split
      · rfl
      · rw [if_neg (by omega)]
  · intro used
    unfold memoryPercent
    rw [if_neg (by omega)]
  · intro s cur hdiff
    unfold getCPUUsageLinux
    split
    · rfl
    · rw [if_pos hdiff]

/-- Witness for `C3_zero_divisors` at concrete zero divisors: a repeat tick
(same timestamp), a zero memory total, and identical jiffy readings. -/
theorem C3_witness :
    (getIoStats (IoState.mk (IoCounters.mk 10 20 5000) false)
        (IoCounters.mk 30 40 5000)).1.1 = 0 ∧
    memoryPercent 12345 0 = 0 ∧
    (getCPUUsageLinux (CPUState.mk (CPUTimes.mk 1 2 3 4 5 6 7 8) false)
        (CPUTimes.mk 1 2 3 4 5 6 7 8)).1 = 0 := by
  refine ⟨(C3_zero_divisors.1 (IoState.mk (IoCounters.mk 10 20 5000) false)
      (IoCounters.mk 30 40 5000) (by decide)).1,
    C3_zero_divisors.2.1 12345,
    C3_zero_divisors.2.2 (CPUState.mk (CPUTimes.mk 1 2 3 4 5 6 7 8) false)
      (CPUTimes.mk 1 2 3 4 5 6 7 8) (sub64_self _)⟩

/-! ## History buffer lemmas (C4, C5) -/

theorem pushHistory_eq_drop (N : ℕ) (h : List SystemStats) (s : SystemStats)
    (hle : h.length ≤ N) :
    pushHistory N h s = (h ++ [s]).drop (h.length + 1 - N) := by
  unfold pushHistory
  dsimp only
  by_cases hc : N < (h ++ [s]).length
  · rw [if_pos hc]
    have hlen : (h ++ [s]).length = h.length + 1 := by simp
    have h1 : h.length + 1 - N = 1 := by omega
    rw [h1, ← List.drop_one]
  · rw [if_neg hc]
    have hlen : (h ++ [s]).length = h.length + 1 := by simp
    have h0 : h.length + 1 - N = 0 := by omega
    rw [h0, List.drop_zero]

theorem pushHistory_length_le (N : ℕ) (h : List SystemStats) (s : SystemStats)
    (hle : h.length ≤ N) : (pushHistory N h s).length ≤ N := by
  rw [pushHistory_eq_drop N h s hle, List.length_drop]
  simp only [List.length_append, List.length_singleton]
  omega

theorem foldl_pushHistory_eq_drop (N : ℕ) :
    ∀ (xs : List SystemStats) (h : List SystemStats), h.length ≤ N →
      List.foldl (pushHistory N) h xs = (h ++ xs).drop (h.length + xs.length - N) := by
  intro xs
  induction xs with
  | nil =>
      intro h hle
      simp only [List.foldl_nil, List.append_nil, List.length_nil, Nat.add_zero]
      rw [Nat.sub_eq_zero_of_le hle, List.drop_zero]
  | cons x rest ih =>
      intro h hle
      rw [List.foldl_cons]
      have h1le : (pushHistory N h x).length ≤ N := pushHistory_length_le N h x hle
      rw [ih (pushHistory N h x) h1le]
      rw [pushHistory_eq_drop N h x hle]
      have hd : h.length + 1 - N ≤ (h ++ [x]).length := by
        simp only [List.length_append, List.length_singleton]
        omega
      rw [← List.drop_append_of_le_length hd, List.drop_drop, List.append_assoc]
      simp only [List.length_drop, List.length_append, List.length_singleton,
        List.length_cons, List.length_nil, List.singleton_append]
      congr 1
      omega

/-- C4: pushing through `collectionLoop`'s history step never lets the deque
exceed the capacity `N`; a push at capacity evicts exactly the oldest entry;
and after pushing `M > N` snapshots starting from empty, the full history
(`getSystemHistory` with `count = 0`) is exactly the last `N` pushed
snapshots in push order. -/
theorem C4_history_bounded :
    ∀ (N : ℕ) (xs : List SystemStats),
      (List.foldl (pushHistory N) [] xs).length ≤ N ∧
      (∀ (h : List SystemStats) (s : SystemStats), h.length = N → 0 < N →
         pushHistory N h s = h.tail ++ [s]) ∧
      (N < xs.length →
         getSystemHistory (List.foldl (pushHistory N) [] xs) 0
           = xs.drop (xs.length - N)) := by
  intro N xs
  have hchar : List.foldl (pushHistory N) [] xs = xs.drop (xs.length - N) := by
    have := foldl_pushHistory_eq_drop N xs [] (by simp)
    simpa using this
  refine ⟨?_, ?_, ?_⟩
  · rw [hchar, List.length_drop]
    omega
  · intro h s hlen hpos
    cases h with
    | nil =>
        simp only [List.length_nil] at hlen
        omega
    | cons a t =>
        rw [pushHistory_eq_drop N (a :: t) s (le_of_eq hlen)]
        have hidx : (a :: t).length + 1 - N = 1 := by
          rw [hlen]
          omega
        rw [hidx]
        rfl
  · intro _
    rw [hchar]
    unfold getSystemHistory
    rw [if_pos (Or.inl rfl)]

/-- Witness for `C4_history_bounded` with capacity `2` and three pushed
snapshots: the buffer holds the last two, in push order. -/
theorem C4_witness :
    (List.foldl (pushHistory 2) []
        [SystemStats.mk 1 0 0 0 0 0 0 0, SystemStats.mk 2 0 0 0 0 0 0 0,
         SystemStats.mk 3 0 0 0 0 0 0 0]).length ≤ 2 ∧
    getSystemHistory (List.foldl (pushHistory 2) []
        [SystemStats.mk 1 0 0 0 0 0 0 0, SystemStats.mk 2 0 0 0 0 0 0 0,
         SystemStats.mk 3 0 0 0 0 0 0 0]) 0
      = [SystemStats.mk 2 0 0 0 0 0 0 0, SystemStats.mk 3 0 0 0 0 0 0 0] := by
  have h := C4_history_bounded 2
    [SystemStats.mk 1 0 0 0 0 0 0 0, SystemStats.mk 2 0 0 0 0 0 0 0,
     SystemStats.mk 3 0 0 0 0 0 0 0]
  refine ⟨h.1, ?_⟩
  rw [h.2.2 (by decide)]
  rfl

/-- C5: `getSystemHistory` returns the whole history when `count = 0` or
`count` is at least the current size, returns exactly the last `count`
entries (oldest first, as a suffix, hence in stored order) when
`0 < count`, and — being a pure copy of a suffix — never removes or
reorders the stored entries. -/
theorem C5_history_query :
    ∀ (h : List SystemStats) (count : ℕ),
      (count = 0 ∨ h.length ≤ count → getSystemHistory h count = h) ∧
      (0 < count → getSystemHistory h count = h.drop (h.length - count)) ∧
      List.IsSuffix (getSystemHistory h count) h := by
  intro h count
  refine ⟨?_, ?_, ?_⟩
  · intro hc
    unfold getSystemHistory
    rw [if_pos hc]
  · intro hc
    unfold getSystemHistory
    by_cases hcase : count = 0 ∨ h.length ≤ count
    · rw [if_pos hcase]
      have : h.length - count = 0 := by omega
      rw [this, List.drop_zero]
    · rw [if_neg hcase]
  · unfold getSystemHistory
    by_cases hcase : count = 0 ∨ h.length ≤ count
    · rw [if_pos hcase]
    · rw [if_neg hcase]
      exact List.drop_suffix _ _

/-- Witness for `C5_history_query`: a three-entry history queried with
`count = 2` yields the last two entries; with `count = 0` it yields all. -/
theorem C5_witness :
    getSystemHistory
        [SystemStats.mk 1 0 0 0 0 0 0 0, SystemStats.mk 2 0 0 0 0 0 0 0,
         SystemStats.mk 3 0 0 0 0 0 0 0] 2
      = ([SystemStats.mk 1 0 0 0 0 0 0 0, SystemStats.mk 2 0 0 0 0 0 0 0,
          SystemStats.mk 3 0 0 0 0 0 0 0].drop 1) ∧
    getSystemHistory [SystemStats.mk 1 0 0 0 0 0 0 0] 0
      = [SystemStats.mk 1 0 0 0 0 0 0 0] := by
  constructor
  · exact (C5_history_query
      [SystemStats.mk 1 0 0 0 0 0 0 0, SystemStats.mk 2 0 0 0 0 0 0 0,
       SystemStats.mk 3 0 0 0 0 0 0 0] 2).2.1 (by decide)
  · exact (C5_history_query [SystemStats.mk 1 0 0 0 0 0 0 0] 0).1 (Or.inl rfl)

/-! ## Cooldown map lemmas (C6, C7, C10) -/

theorem lastAlertsFind_set_self (m : LastAlerts) (key : AlertKey) (now : ℤ) :
    lastAlertsFind (lastAlertsSet m key now) key = some now := by
  induction m with
  | nil => simp [lastAlertsSet, lastAlertsFind]
  | cons e rest ih =>
      obtain ⟨k, t⟩ := e
      by_cases hk : k = key
      · simp [lastAlertsSet, lastAlertsFind, hk]
      · simp only [lastAlertsSet, if_neg hk]
        simp only [lastAlertsFind, if_neg hk]
        exact ih

theorem lastAlertsFind_set_other (m : LastAlerts) (key k' : AlertKey) (now : ℤ)
    (hne : k' ≠ key) :
    lastAlertsFind (lastAlertsSet m key now) k' = lastAlertsFind m k' := by
  have hne' : ¬ key = k' := fun h => hne h.symm
  induction m with
  | nil => simp [lastAlertsSet, lastAlertsFind, hne']
  | cons e rest ih =>
      obtain ⟨k, t⟩ := e
      by_cases hk : k = key
      · subst hk
        simp [lastAlertsSet, lastAlertsFind, hne']
      · by_cases hk' : k = k'
        · simp [lastAlertsSet, lastAlertsFind, hk, hk', hne]
        · simp [lastAlertsSet, lastAlertsFind, hk, hk', ih]

theorem shouldAlert_eq_none (th : AlertThresholds) (m : LastAlerts)
    (key : AlertKey) (now : ℤ) (h : lastAlertsFind m key = none) :
    shouldAlert th m key now = (true, lastAlertsSet m key now) := by
  unfold shouldAlert
  rw [h]

theorem shouldAlert_eq_some (th : AlertThresholds) (m : LastAlerts)
    (key : AlertKey) (now t : ℤ) (h : lastAlertsFind m key = some t) :
    shouldAlert th m key now
      = if th.cooldown_period ≤ now - t then (true, lastAlertsSet m key now)
        else (false, m) := by
  unfold shouldAlert
  rw [h]

theorem shouldAlert_find_other (th : AlertThresholds) (m : LastAlerts)
    (key k' : AlertKey) (now : ℤ) (hne : k' ≠ key) :
    lastAlertsFind (shouldAlert th m key now).2 k' = lastAlertsFind m k' := by
  cases hfind : lastAlertsFind m key with
  | none =>
      rw [shouldAlert_eq_none th m key now hfind]
      exact lastAlertsFind_set_other m key k' now hne
  | some t =>
      rw [shouldAlert_eq_some th m key now t hfind]
      by_cases hc : th.cooldown_period ≤ now - t
      · rw [if_pos hc]
        exact lastAlertsFind_set_other m key k' now hne
      · rw [if_neg hc]

theorem shouldAlert_fired_find (th : AlertThresholds) (m : LastAlerts)
    (key : AlertKey) (now : ℤ) (hfired : (shouldAlert th m key now).1 = true) :
    lastAlertsFind (shouldAlert th m key now).2 key = some now := by
  cases hfind : lastAlertsFind m key with
  | none =>
      rw [shouldAlert_eq_none th m key now hfind]
      exact lastAlertsFind_set_self m key now
  | some t =>
      rw [shouldAlert_eq_some th m key now t hfind] at hfired ⊢
      by_cases hc : th.cooldown_period ≤ now - t
      · rw [if_pos hc]
        exact lastAlertsFind_set_self m key now
      · rw [if_neg hc] at hfired
        simp at hfired

/-- C6: the cooldown rule of `shouldAlert`.  A key absent from
`last_alerts_` is always eligible; a present key fires exactly when
`now - last_alerts_[key] ≥ cooldown_period`; on firing the map records
`now` for the key (inside `shouldAlert`, hence before the alert is built
and delivered by `checkAlerts`).  Consequently, with a key first fired at
`t0`, re-tried at `t0 + eps` with `eps` below the cooldown, and re-tried
again at `t0 + cooldown`, exactly the first and third attempts fire. -/
theorem C6_cooldown :
    ∀ (th : AlertThresholds) (m : LastAlerts) (key : AlertKey),
      (∀ now : ℤ, lastAlertsFind m key = none →
         (shouldAlert th m key now).1 = true) ∧
      (∀ now t : ℤ, lastAlertsFind m key = some t →
         ((shouldAlert th m key now).1 = true ↔ th.cooldown_period ≤ now - t)) ∧
      (∀ now : ℤ, (shouldAlert th m key now).1 = true →
         lastAlertsFind (shouldAlert th m key now).2 key = some now) ∧
      (∀ t0 eps : ℤ, lastAlertsFind m key = none →
         eps < th.cooldown_period →
         (shouldAlert th m key t0).1 = true ∧
         (shouldAlert th (shouldAlert th m key t0).2 key (t0 + eps)).1 = false ∧
         (shouldAlert th
             (shouldAlert th (shouldAlert th m key t0).2 key (t0 + eps)).2
             key (t0 + th.cooldown_period)).1 = true) := by
  intro th m key
  have hfindset : ∀ now : ℤ,
      lastAlertsFind (lastAlertsSet m key now) key = some now :=
    lastAlertsFind_set_self m key
  refine ⟨?_, ?_, shouldAlert_fired_find th m key, ?_⟩
  · intro now hnone
    rw [shouldAlert_eq_none th m key now hnone]
  · intro now t hsome
    rw [shouldAlert_eq_some th m key now t hsome]
    by_cases hc : th.cooldown_period ≤ now - t
    · rw [if_pos hc]
      simpa using hc
    · rw [if_neg hc]
      simpa using hc
  · intro t0 eps hnone hlt
    have h1 : shouldAlert th m key t0 = (true, lastAlertsSet m key t0) :=
      shouldAlert_eq_none th m key t0 hnone
    have h2 : shouldAlert th (lastAlertsSet m key t0) key (t0 + eps)
        = (false, lastAlertsSet m key t0) := by
      rw [shouldAlert_eq_some th (lastAlertsSet m key t0) key (t0 + eps) t0
        (hfindset t0)]
      rw [if_neg (by omega)]
    have h3 : (shouldAlert th (lastAlertsSet m key t0) key
        (t0 + th.cooldown_period)).1 = true := by
      rw [shouldAlert_eq_some th (lastAlertsSet m key t0) key
        (t0 + th.cooldown_period) t0 (hfindset t0)]
      rw [if_pos (by omega)]
    rw [h1]
    rw [h2]
    exact ⟨rfl, rfl, h3⟩

/-- Witness for `C6_cooldown`: a fresh key with cooldown `60` s fired at
time `0`, re-tried at `10` s and at `60` s — the first and third attempts
fire, the second does not. -/
theorem C6_witness :
    (shouldAlert {} [] AlertKey.cpu 0).1 = true ∧
    (shouldAlert {} (shouldAlert {} [] AlertKey.cpu 0).2 AlertKey.cpu
        10000000000).1 = false ∧
    (shouldAlert {}
        (shouldAlert {} (shouldAlert {} [] AlertKey.cpu 0).2 AlertKey.cpu
          10000000000).2
        AlertKey.cpu 60000000000).1 = true := by
  have h := (C6_cooldown {} [] AlertKey.cpu).2.2.2 0 10000000000 rfl (by decide)
  simpa using h

/-- C10: `shouldAlert` mutates `last_alerts_` only when it grants a firing —
a `false` answer leaves the map exactly as it was — and a firing for one key
never changes the entry stored for any other key. -/
theorem C10_frame :
    ∀ (th : AlertThresholds) (m : LastAlerts) (key : AlertKey) (now : ℤ),
      ((shouldAlert th m key now).1 = false → (shouldAlert th m key now).2 = m) ∧
      (∀ k' : AlertKey, k' ≠ key →
         lastAlertsFind (shouldAlert th m key now).2 k' = lastAlertsFind m k') := by
  intro th m key now
  constructor
  · intro hfalse
    cases hfind : lastAlertsFind m key with
    | none =>
        rw [shouldAlert_eq_none th m key now hfind] at hfalse
        simp at hfalse
    | some t =>
        rw [shouldAlert_eq_some th m key now t hfind] at hfalse ⊢
        by_cases hc : th.cooldown_period ≤ now - t
        · rw [if_pos hc] at hfalse
          simp at hfalse
        · rw [if_neg hc]
  · intro k' hne
    exact shouldAlert_find_other th m key k' now hne

/-- Witness for `C10_frame`: a key in cooldown leaves the map untouched, and
firing the `cpu` key does not change the entry of a `process` key. -/
theorem C10_witness :
    (shouldAlert {} [(AlertKey.cpu, 0)] AlertKey.cpu 5).2 = [(AlertKey.cpu, 0)] ∧
    lastAlertsFind (shouldAlert {} [(AlertKey.process 7, 3)] AlertKey.cpu
        100000000000).2 (AlertKey.process 7)
      = lastAlertsFind [(AlertKey.process 7, 3)] (AlertKey.process 7) := by
  constructor
  · exact (C10_frame {} [(AlertKey.cpu, 0)] AlertKey.cpu 5).1 (by decide)
  · exact (C10_frame {} [(AlertKey.process 7, 3)] AlertKey.cpu 100000000000).2
      (AlertKey.process 7) (by decide)

/-! ## Per-process alert lemmas (C7) -/

theorem checkCpuAlert_find_process (th : AlertThresholds) (m : LastAlerts)
    (stats : SystemStats) (now : ℤ) (pid : ℕ) :
    lastAlertsFind (checkCpuAlert th m stats now).2 (AlertKey.process pid)
      = lastAlertsFind m (AlertKey.process pid) := by
  unfold checkCpuAlert
  split
  · exact shouldAlert_find_other th m AlertKey.cpu (AlertKey.process pid) now
      (fun h => nomatch h)
  · rfl

theorem checkMemoryAlert_find_process (th : AlertThresholds) (m : LastAlerts)
    (stats : SystemStats) (now : ℤ) (pid : ℕ) :
    lastAlertsFind (checkMemoryAlert th m stats now).2 (AlertKey.process pid)
      = lastAlertsFind m (AlertKey.process pid) := by
  unfold checkMemoryAlert
  split
  · exact shouldAlert_find_other th m AlertKey.memory (AlertKey.process pid) now
      (fun h => nomatch h)
  · rfl

theorem checkIoAlert_find_process (th : AlertThresholds) (m : LastAlerts)
    (stats : SystemStats) (now : ℤ) (pid : ℕ) :
    lastAlertsFind (checkIoAlert th m stats now).2 (AlertKey.process pid)
      = lastAlertsFind m (AlertKey.process pid) := by
  unfold checkIoAlert
  split
  · exact shouldAlert_find_other th m AlertKey.io (AlertKey.process pid) now
      (fun h => nomatch h)
  · rfl

theorem checkSystemAlerts_find_process (th : AlertThresholds) (m : LastAlerts)
    (stats : SystemStats) (now : ℤ) (pid : ℕ) :
    lastAlertsFind (checkSystemAlerts th m stats now).2 (AlertKey.process pid)
      = lastAlertsFind m (AlertKey.process pid) := by
  unfold checkSystemAlerts
  dsimp only
  rw [checkIoAlert_find_process, checkMemoryAlert_find_process,
    checkCpuAlert_find_process]

theorem checkProcessAlerts_find_frame (th : AlertThresholds) (now : ℤ) :
    ∀ (procs : List ProcessInfo) (m : LastAlerts) (k : AlertKey),
      (∀ q ∈ procs, AlertKey.process q.pid ≠ k) →
      lastAlertsFind (checkProcessAlerts th m procs now).2 k = lastAlertsFind m k := by
  intro procs
  induction procs with
  | nil => intro m k _; rfl
  | cons q rest ih =>
      intro m k hk
      have hkq : AlertKey.process q.pid ≠ k := hk q (List.mem_cons_self q rest)
      have hkrest : ∀ q' ∈ rest, AlertKey.process q'.pid ≠ k :=
        fun q' hq' => hk q' (List.mem_cons_of_mem q hq')
      unfold checkProcessAlerts
      by_cases hcpu : (50 : ℚ) < q.cpu_percent
      · rw [if_pos hcpu]
        by_cases hfire : (shouldAlert th m (AlertKey.process q.pid) now).1 = true
        · rw [if_pos hfire]
          dsimp only
          rw [ih _ k hkrest]
          exact shouldAlert_find_other th m (AlertKey.process q.pid) k now hkq.symm
        · rw [if_neg hfire]
          rw [ih _ k hkrest]
          exact shouldAlert_find_other th m (AlertKey.process q.pid) k now hkq.symm
      · rw [if_neg hcpu]
        exact ih m k hkrest

theorem checkProcessAlerts_fires (th : AlertThresholds) (now : ℤ) :
    ∀ (procs : List ProcessInfo) (m : LastAlerts) (p : ProcessInfo),
      (procs.map ProcessInfo.pid).Nodup →
      p ∈ procs →
      50 < p.cpu_percent →
      lastAlertsFind m (AlertKey.process p.pid) = none →
      processAlertOf p now ∈ (checkProcessAlerts th m procs now).1 ∧
      lastAlertsFind (checkProcessAlerts th m procs now).2 (AlertKey.process p.pid)
        = some now := by
  intro procs
  induction procs with
  | nil => intro m p _ hmem; cases hmem
  | cons q rest ih =>
      intro m p hnodup hmem hcpu hnone
      have hnodup' : (rest.map ProcessInfo.pid).Nodup :=
        (List.nodup_cons.mp hnodup).2
      have hqnotin : q.pid ∉ rest.map ProcessInfo.pid :=
        (List.nodup_cons.mp hnodup).1
      rcases List.mem_cons.mp hmem with heq | hmem'
      · subst heq
        unfold checkProcessAlerts
        rw [if_pos hcpu]
        have hfire : shouldAlert th m (AlertKey.process p.pid) now
            = (true, lastAlertsSet m (AlertKey.process p.pid) now) :=
          shouldAlert_eq_none th m (AlertKey.process p.pid) now hnone
        rw [hfire]
        rw [if_pos rfl]
        dsimp only
        constructor
        · exact List.mem_cons_self _ _
        · rw [checkProcessAlerts_find_frame th now rest _ (AlertKey.process p.pid)
            (fun q' hq' h => hqnotin (by
              have : q'.pid = p.pid := by injection h
              rw [← this]
              exact List.mem_map_of_mem ProcessInfo.pid hq'))]
          exact lastAlertsFind_set_self m (AlertKey.process p.pid) now
      · have hpne : p.pid ≠ q.pid := by
          intro h
          exact hqnotin (h ▸ List.mem_map_of_mem ProcessInfo.pid hmem')
        unfold checkProcessAlerts
        by_cases hqcpu : (50 : ℚ) < q.cpu_percent
        · rw [if_pos hqcpu]
          have hnone' : lastAlertsFind
              (shouldAlert th m (AlertKey.process q.pid) now).2
              (AlertKey.process p.pid) = none := by
            rw [shouldAlert_find_other th m (AlertKey.process q.pid)
              (AlertKey.process p.pid) now (by simp [hpne])]
            exact hnone
          have htail := ih (shouldAlert th m (AlertKey.process q.pid) now).2 p
            hnodup' hmem' hcpu hnone'
          by_cases hfire : (shouldAlert th m (AlertKey.process q.pid) now).1 = true
          · rw [if_pos hfire]
            exact ⟨List.mem_cons_of_mem _ htail.1, htail.2⟩
          · rw [if_neg hfire]
            exact htail
        · rw [if_neg hqcpu]
          exact ih m p hnodup' hmem' hcpu hnone

/-- C7: in one `checkAlerts` tick over a process list with pairwise distinct
pids, every process whose `cpu_percent` exceeds the per-process threshold
`50.0` and whose key `process_<pid>` has never fired produces its own
PROCESS alert in the returned list, and the cooldown map afterwards records
`now` under that process's own key.  Since this holds for each such process
simultaneously, two distinct pids exceeding the threshold in the same tick
each fire their own alert, neither suppressing the other. -/
theorem C7_per_process_alerts :
    ∀ (th : AlertThresholds) (m : LastAlerts) (stats : SystemStats)
      (procs : List ProcessInfo) (now : ℤ) (p : ProcessInfo),
      (procs.map ProcessInfo.pid).Nodup →
      p ∈ procs →
      50 < p.cpu_percent →
      lastAlertsFind m (AlertKey.process p.pid) = none →
      processAlertOf p now ∈ (checkAlerts th m stats procs now).1 ∧
      lastAlertsFind (checkAlerts th m stats procs now).2 (AlertKey.process p.pid)
        = some now := by
  intro th m stats procs now p hnodup hmem hcpu hnone
  have hnone' : lastAlertsFind (checkSystemAlerts th m stats now).2
      (AlertKey.process p.pid) = none := by
    rw [checkSystemAlerts_find_process]
    exact hnone
  have h := checkProcessAlerts_fires th now procs
    (checkSystemAlerts th m stats now).2 p hnodup hmem hcpu hnone'
  unfold checkAlerts
  exact ⟨List.mem_append_right _ h.1, h.2⟩

/-- Witness for `C7_per_process_alerts`: two processes with distinct pids
`1` and `2`, both above `50`% CPU, in the same tick over a fresh cooldown
map — each one's alert is in the output (neither suppresses the other). -/
theorem C7_witness :
    processAlertOf (ProcessInfo.mk 1 "a" 60 0 0 0 0 "" 0) 5
      ∈ (checkAlerts {} [] {}
          [ProcessInfo.mk 1 "a" 60 0 0 0 0 "" 0,
           ProcessInfo.mk 2 "b" 70 0 0 0 0 "" 0] 5).1 ∧
    processAlertOf (ProcessInfo.mk 2 "b" 70 0 0 0 0 "" 0) 5
      ∈ (checkAlerts {} [] {}
          [ProcessInfo.mk 1 "a" 60 0 0 0 0 "" 0,
           ProcessInfo.mk 2 "b" 70 0 0 0 0 "" 0] 5).1 := by
  constructor
  · exact (C7_per_process_alerts {} [] {}
      [ProcessInfo.mk 1 "a" 60 0 0 0 0 "" 0, ProcessInfo.mk 2 "b" 70 0 0 0 0 "" 0]
      5 (ProcessInfo.mk 1 "a" 60 0 0 0 0 "" 0)
      (by decide) (List.mem_cons_self _ _) (by norm_num) rfl).1
  · exact (C7_per_process_alerts {} [] {}
      [ProcessInfo.mk 1 "a" 60 0 0 0 0 "" 0, ProcessInfo.mk 2 "b" 70 0 0 0 0 "" 0]
      5 (ProcessInfo.mk 2 "b" 70 0 0 0 0 "" 0)
      (by decide) (List.mem_cons_of_mem _ (List.mem_cons_self _ _))
      (by norm_num) rfl).1

/-! ## C8 — the tie-breaking of the process sort -/

/-- C8 evidence.  `collectionLoop` orders the process list with `std::sort`
and the strict comparator `a.cpu_percent > b.cpu_percent`.  For the two
concrete processes below with equal `cpu_percent`, the comparator holds in
neither direction, so it imposes no ordering constraint between them:
`std::sort` — unlike `std::stable_sort` — gives no guarantee that their
input order is preserved, which is what the claim's stability conjunct
requires. -/
theorem C8_comparator_ties_unconstrained :
    (ProcessInfo.mk 1 "a" 10 0 0 0 0 "" 0).cpu_percent
      = (ProcessInfo.mk 2 "b" 10 0 0 0 0 "" 0).cpu_percent ∧
    cpuDescending (ProcessInfo.mk 1 "a" 10 0 0 0 0 "" 0)
      (ProcessInfo.mk 2 "b" 10 0 0 0 0 "" 0) = false ∧
    cpuDescending (ProcessInfo.mk 2 "b" 10 0 0 0 0 "" 0)
      (ProcessInfo.mk 1 "a" 10 0 0 0 0 "" 0) = false := by
  refine ⟨rfl, ?_, ?_⟩ <;>
  · unfold cpuDescending
    decide

end SystemMonitoringTool
